import Mathlib

/-!
Verification of the Waveshare 4.2" v2 e-paper driver
(papertty/drivers/drivers_4in2v2.py, class EPD4in2v2).

The driver is embedded shallowly:

* `EPDState` mirrors the mutable instance attributes relevant to the
  claims: `partial_refresh`, `gray`, and the byte array `frame_buffer`
  (represented as a function from byte index to byte value; `__init__`
  creates `[0xff] * (width * height // 8)`).
* Bus traffic is modelled as a trace of `Event`s: `send_command` emits
  `Event.cmd`, each byte transferred by `send_data` emits `Event.dat`,
  the reset pulse of `reset()` is a single `Event.rst`, and each call of
  `wait_until_idle` is a single `Event.idle`.
* Methods that in Python mutate `self` and talk to the bus become
  functions `EPDState → EPDState × List Event`.
* PIL images (mode 1) are embedded as `Image`: a width, a height and a
  pixel-value function.  In PIL mode 1 a pixel value of 0 renders black
  and any non-zero value renders white; `Image.new` with color
  `"white"` fills with 255.
-/

/-- Panel width in pixels (the driver is constructed with `width=400`). -/
def WIDTH : Nat := 400

/-- Panel height in pixels (the driver is constructed with `height=300`). -/
def HEIGHT : Nat := 300

/-- A PIL image as consumed/produced by the driver: size plus a pixel
value function (mode-1 values; 0 renders black, non-zero renders
white).  `pixels i j` is `image.load()[i, j]`. -/
structure Image where
  width : Nat
  height : Nat
  pixels : Nat → Nat → Nat

/-- The driver state: the `partial_refresh` and `gray` flags set by
`init`/`init_fast`, and the in-memory mirror `frame_buffer` of
`width * height // 8` bytes (byte index ↦ byte value). -/
structure EPDState where
  partial_refresh : Bool
  gray : Bool
  frame_buffer : Nat → Nat

/-- The state right after `__init__`: `self.frame_buffer = [0xff] * (self.width * self.height // 8)`.
The two mode flags are first assigned in `init`/`init_fast`; their value in
the fresh object is irrelevant to every claim, so they are parameters. -/
def mkInitState (p g : Bool) : EPDState :=
  { partial_refresh := p, gray := g, frame_buffer := fun _ => 0xff }

/-- One bus event: a command byte, a data byte, the reset pulse of
`reset()`, or one `wait_until_idle` busy-wait. -/
inductive Event where
  | cmd : Nat → Event
  | dat : Nat → Event
  | rst : Event
  | idle : Event
deriving DecidableEq

/-- Trace of `send_command(command)`: one command byte on the bus. -/
def send_command (command : Nat) : List Event := [Event.cmd command]

/-- Trace of `send_data(data)` for a single (non-list) data byte. -/
def send_data_byte (d : Nat) : List Event := [Event.dat d]

/-- Trace of `send_data(data)` for a list argument: `spi_transfer([d])`
for each byte in order. -/
def send_data_list (ds : List Nat) : List Event := ds.map Event.dat

/-- Trace of `reset()` (the fixed RST-pin pulse pattern, abstracted to
one event; it touches no driver state and no command/data framing). -/
def reset : List Event := [Event.rst]

/-- Trace of `wait_until_idle()` (the BUSY-pin poll loop, abstracted to
one event; it touches no driver state). -/
def wait_until_idle : List Event := [Event.idle]

/-- Trace of `turn_on_display()`: command 0x22, data 0xF7, command 0x20,
then `wait_until_idle()`. -/
def turn_on_display : List Event :=
  send_command 0x22 ++ send_data_byte 0xF7 ++ send_command 0x20 ++ wait_until_idle

/-- Trace of `turn_on_display_fast()`: command 0x22, data 0xC7, command
0x20, then `wait_until_idle()`. -/
def turn_on_display_fast : List Event :=
  send_command 0x22 ++ send_data_byte 0xC7 ++ send_command 0x20 ++ wait_until_idle

/-- Trace of `turn_on_display_partial()`: command 0x22, data 0xFF,
command 0x20, then `wait_until_idle()`. -/
def turn_on_display_partial : List Event :=
  send_command 0x22 ++ send_data_byte 0xFF ++ send_command 0x20 ++ wait_until_idle

/-- The bytes of `self.frame_buffer` in index order, as passed to
`send_data(self.frame_buffer)`. -/
def frameBufferBytes (s : EPDState) : List Nat :=
  (List.range (WIDTH * HEIGHT / 8)).map s.frame_buffer

/-- `clear()`: computes `linewidth` (`width/8`, rounded up when `width`
is not a multiple of 8), sends `[0xff] * (height * linewidth)` to RAM
plane 0x24 and again to plane 0x26, then `turn_on_display()`.  It never
reads or writes `self.frame_buffer`. -/
def clear (s : EPDState) : EPDState × List Event :=
  let linewidth := if WIDTH % 8 = 0 then WIDTH / 8 else WIDTH / 8 + 1
  (s, send_command 0x24 ++ send_data_list (List.replicate (HEIGHT * linewidth) 0xff)
      ++ send_command 0x26 ++ send_data_list (List.replicate (HEIGHT * linewidth) 0xff)
      ++ turn_on_display)

/-- `display_full()`: sends `self.frame_buffer` to RAM plane 0x24, then
the same bytes to plane 0x26, then `turn_on_display()`. -/
def display_full (s : EPDState) : EPDState × List Event :=
  (s, send_command 0x24 ++ send_data_list (frameBufferBytes s)
      ++ send_command 0x26 ++ send_data_list (frameBufferBytes s)
      ++ turn_on_display)

/-- `display_partial()`: border waveform 0x3C←0x80, update control
0x21←(0x00,0x00), border waveform 0x3C←0x80 again, RAM X window
0x44←(0x00,0x31), RAM Y window 0x45←(0x00,0x00,0x2B,0x01), RAM X counter
0x4E←0x00, RAM Y counter 0x4F←(0x00,0x00), then `self.frame_buffer` to
plane 0x24 only, then `turn_on_display_partial()`. -/
def display_partial (s : EPDState) : EPDState × List Event :=
  (s, send_command 0x3C ++ send_data_byte 0x80
      ++ send_command 0x21 ++ send_data_byte 0x00 ++ send_data_byte 0x00
      ++ send_command 0x3C ++ send_data_byte 0x80
      ++ send_command 0x44 ++ send_data_byte 0x00 ++ send_data_byte 0x31
      ++ send_command 0x45 ++ send_data_byte 0x00 ++ send_data_byte 0x00
      ++ send_data_byte 0x2B ++ send_data_byte 0x01
      ++ send_command 0x4E ++ send_data_byte 0x00
      ++ send_command 0x4F ++ send_data_byte 0x00 ++ send_data_byte 0x00
      ++ send_command 0x24 ++ send_data_list (frameBufferBytes s)
      ++ turn_on_display_partial)

/-- `sleep()`: deep-sleep command 0x10 with single data byte 0x01.  The
method changes no driver state; the code keeps no device-state field. -/
def sleep (s : EPDState) : EPDState × List Event :=
  (s, send_command 0x10 ++ send_data_byte 0x01)

/-- The body of the inner loop of `set_frame_buffer` for source pixel
`(i, j)`: `idxj = (y + j) * width // 8`, `idiv, irem = divmod(x + i, 8)`,
`mask = 0x80 >> irem`; then `frame_buffer[idiv + idxj] |= mask` when
`pixels[i, j] != 0`, else `frame_buffer[idiv + idxj] &= ~mask`
(clearing the mask bit; `Nat.ldiff b m` is `b AND NOT m`). -/
def mergePixel (pix : Nat → Nat → Nat) (x y i j : Nat) (fb : Nat → Nat) : Nat → Nat :=
  let idxj := (y + j) * WIDTH / 8
  let idiv := (x + i) / 8
  let mask := 0x80 >>> ((x + i) % 8)
  fun k =>
    if k = idiv + idxj then
      if pix i j ≠ 0 then fb k ||| mask else Nat.ldiff (fb k) mask
    else fb k

/-- The inner loop `for i in range(w)` of `set_frame_buffer` at row `j`. -/
def mergeRow (pix : Nat → Nat → Nat) (x y j w : Nat) (fb : Nat → Nat) : Nat → Nat :=
  (List.range w).foldl (fun fb i => mergePixel pix x y i j fb) fb

/-- The outer loop `for j in range(h)` of `set_frame_buffer`. -/
def mergeRect (pix : Nat → Nat → Nat) (x y w h : Nat) (fb : Nat → Nat) : Nat → Nat :=
  (List.range h).foldl (fun fb j => mergeRow pix x y j w fb) fb

/-- `set_frame_buffer(x, y, image)`: runs the two nested loops over the
source image (already mode 1; `convert('1')` on a mode-1 image is the
identity) and updates `self.frame_buffer` in place. -/
def set_frame_buffer (x y : Nat) (img : Image) (s : EPDState) : EPDState :=
  { s with frame_buffer := mergeRect img.pixels x y img.width img.height s.frame_buffer }

/-- `frame_buffer_to_image()`: a `width × height` mode-1 image, created
white, whose pixel `(i, j)` is assigned
`frame_buffer[i // 8 + (j * width) // 8] & (0x80 >> (i % 8))` by the two
loops (positions outside the loop ranges keep the white fill 255). -/
def frame_buffer_to_image (s : EPDState) : Image :=
  { width := WIDTH, height := HEIGHT,
    pixels := fun i j =>
      if i < WIDTH ∧ j < HEIGHT then
        s.frame_buffer (i / 8 + j * WIDTH / 8) &&& 0x80 >>> (i % 8)
      else 255 }

/-- `draw(x, y, image)`: `set_frame_buffer(x, y, image)` then
`display_partial()` if `self.partial_refresh` else `display_full()`. -/
def draw (x y : Nat) (img : Image) (s : EPDState) : EPDState × List Event :=
  let s1 := set_frame_buffer x y img s
  if s1.partial_refresh then display_partial s1 else display_full s1

/-- `Image.new('1', (w, h), color)`: a solid image of one pixel value. -/
def solidImage (w h color : Nat) : Image :=
  { width := w, height := h, pixels := fun _ _ => color }

/-- One step of the `fill` loop: perform `draw` at the given position
with the given tile image, accumulating state and trace. -/
def drawStep (acc : EPDState × List Event) (p : Nat × Nat × Image) : EPDState × List Event :=
  let r := draw p.1 p.2.1 p.2.2 acc.1
  (r.1, acc.2 ++ r.2)

/-- `fill(color, fillsize)`: `div, rem = divmod(height, fillsize)`; draw
a full-width solid tile of height `fillsize` at `(0, i * fillsize)` for
`i in range(div)`; if `rem != 0`, draw one final full-width tile of
height `rem` at `(0, div * fillsize)`. -/
def fill (color fillsize : Nat) (s : EPDState) : EPDState × List Event :=
  let dv := HEIGHT / fillsize
  let rm := HEIGHT % fillsize
  let main := (List.range dv).foldl
    (fun acc i => drawStep acc (0, i * fillsize, solidImage WIDTH fillsize color)) (s, [])
  if rm ≠ 0 then drawStep main (0, dv * fillsize, solidImage WIDTH rm color) else main

/-- The list of `(x, y, image)` arguments `fill(color, fillsize)` passes
to `draw`, in call order. -/
def fillCalls (color fillsize : Nat) : List (Nat × Nat × Image) :=
  let dv := HEIGHT / fillsize
  let rm := HEIGHT % fillsize
  ((List.range dv).map fun i => (0, i * fillsize, solidImage WIDTH fillsize color))
  ++ (if rm ≠ 0 then [(0, dv * fillsize, solidImage WIDTH rm color)] else [])

/-- `init(partial, gray)` with the transport bring-up result
(`epd_init()`) supplied as `epdOk`.  Sets the two flags, aborts with a
failure flag when bring-up fails, otherwise runs the register sequence
of lines 160–194 and finishes with `clear()`.  The `Bool` component is
`true` for the success (implicit `None`) return and `false` for the
`-1` return. -/
def init (p g : Bool) (epdOk : Bool) (s : EPDState) : EPDState × List Event × Bool :=
  let s1 := { s with partial_refresh := p, gray := g }
  if epdOk then
    let pre := reset ++ wait_until_idle
      ++ send_command 0x12 ++ wait_until_idle
      ++ send_command 0x21 ++ send_data_byte 0x40 ++ send_data_byte 0x00
      ++ send_command 0x3C ++ send_data_byte 0x05
      ++ send_command 0x11 ++ send_data_byte 0x03
      ++ send_command 0x44 ++ send_data_byte 0x00 ++ send_data_byte 0x31
      ++ send_command 0x45 ++ send_data_byte 0x00 ++ send_data_byte 0x00
      ++ send_data_byte 0x2B ++ send_data_byte 0x01
      ++ send_command 0x4E ++ send_data_byte 0x00
      ++ send_command 0x4F ++ send_data_byte 0x00 ++ send_data_byte 0x00
      ++ wait_until_idle
    let r := clear s1
    (r.1, pre ++ r.2, true)
  else (s1, [], false)

/-- `init_fast(partial, gray)`: same shape as `init` but with the
temperature load (0x1A←0x5A) and an update-activate cycle
(0x22←0x91, 0x20, wait) inserted after the border-waveform write, and
with no `clear()` call at the end (lines 204–244). -/
def init_fast (p g : Bool) (epdOk : Bool) (s : EPDState) : EPDState × List Event × Bool :=
  let s1 := { s with partial_refresh := p, gray := g }
  if epdOk then
    let pre := reset ++ wait_until_idle
      ++ send_command 0x12 ++ wait_until_idle
      ++ send_command 0x21 ++ send_data_byte 0x40 ++ send_data_byte 0x00
      ++ send_command 0x3C ++ send_data_byte 0x05
      ++ send_command 0x1A ++ send_data_byte 0x5A
      ++ send_command 0x22 ++ send_data_byte 0x91
      ++ send_command 0x20 ++ wait_until_idle
      ++ send_command 0x11 ++ send_data_byte 0x03
      ++ send_command 0x44 ++ send_data_byte 0x00 ++ send_data_byte 0x31
      ++ send_command 0x45 ++ send_data_byte 0x00 ++ send_data_byte 0x00
      ++ send_data_byte 0x2B ++ send_data_byte 0x01
      ++ send_command 0x4E ++ send_data_byte 0x00
      ++ send_command 0x4F ++ send_data_byte 0x00 ++ send_data_byte 0x00
      ++ wait_until_idle
    (s1, pre, true)
  else (s1, [], false)

/-- A pixel value of a PIL mode-1 image is rendered black exactly when
it is zero (PIL mode 1: 0 = black, non-zero = white). -/
def isBlackPixel (v : Nat) : Prop := v = 0

/-- The monochrome value of panel pixel `(u, v)` stored in a frame
buffer: the bit `0x80 >> (u % 8)` of byte `u / 8 + v * WIDTH / 8`. -/
def pixelBit (fb : Nat → Nat) (u v : Nat) : Bool :=
  (fb (u / 8 + v * WIDTH / 8)).testBit (7 - u % 8)

/-- Helper: `clear` returns the driver state unchanged. -/
lemma clear_fst (s : EPDState) : (clear s).1 = s := rfl

/-- Helper: the `linewidth` computed by `clear` is 50. -/
lemma clear_linewidth : (if WIDTH % 8 = 0 then WIDTH / 8 else WIDTH / 8 + 1) = 50 := by decide

/-- Helper: `send_data` on a replicated list sends the byte repeatedly. -/
lemma send_data_list_replicate (n d : Nat) :
    send_data_list (List.replicate n d) = List.replicate n (Event.dat d) := by
  rw [send_data_list, List.map_replicate]

/-- Helper: the event trace of `clear` is the same for every state. -/
lemma clear_snd (s : EPDState) :
    (clear s).2 = [Event.cmd 0x24] ++ List.replicate (HEIGHT * 50) (Event.dat 0xff)
      ++ [Event.cmd 0x26] ++ List.replicate (HEIGHT * 50) (Event.dat 0xff)
      ++ [Event.cmd 0x22, Event.dat 0xF7, Event.cmd 0x20, Event.idle] := by
  show send_command 0x24 ++ send_data_list (List.replicate (HEIGHT * (if WIDTH % 8 = 0 then WIDTH / 8 else WIDTH / 8 + 1)) 0xff)
      ++ send_command 0x26 ++ send_data_list (List.replicate (HEIGHT * (if WIDTH % 8 = 0 then WIDTH / 8 else WIDTH / 8 + 1)) 0xff)
      ++ turn_on_display = _
  rw [clear_linewidth, send_data_list_replicate]
  rfl

/-- C10: `clear()` leaves the in-memory mirror `frame_buffer` (indeed the
whole driver state) unchanged; it sends `height * ceil(width/8) = 300 * 50`
bytes of 0xFF to RAM plane 0x24 and again to plane 0x26, then activates a
full update (0x22←0xF7, 0x20, wait-idle), never touching `frame_buffer`. -/
theorem clear_preserves_frame_buffer (s : EPDState) :
    (clear s).1.frame_buffer = s.frame_buffer
    ∧ (clear s).1 = s
    ∧ (clear s).2 = [Event.cmd 0x24] ++ List.replicate (HEIGHT * 50) (Event.dat 0xff)
        ++ [Event.cmd 0x26] ++ List.replicate (HEIGHT * 50) (Event.dat 0xff)
        ++ [Event.cmd 0x22, Event.dat 0xF7, Event.cmd 0x20, Event.idle] :=
  ⟨rfl, rfl, clear_snd s⟩

/-- C7: `display_full()` writes the frame-buffer mirror byte-identically
to plane 0x24 and then to plane 0x26 (the same `frameBufferBytes s` both
times), then activates with waveform byte 0xF7 on the 0x22/0x20 pair and
waits idle; the driver state is unchanged. -/
theorem display_full_both_planes (s : EPDState) :
    ( display_full s).2 = [Event.cmd 0x24] ++ (frameBufferBytes s).map Event.dat
      ++ [Event.cmd 0x26] ++ (frameBufferBytes s).map Event.dat
      ++ [Event.cmd 0x22, Event.dat 0xF7, Event.cmd 0x20, Event.idle]
    ∧ ( display_full s).1 = s :=
  ⟨rfl, rfl⟩

/-- Helper: the trace of `display_partial` in closed form. -/
lemma display_partial_snd (s : EPDState) :
    ( display_partial s).2 =
      [Event.cmd 0x3C, Event.dat 0x80, Event.cmd 0x21, Event.dat 0x00, Event.dat 0x00,
       Event.cmd 0x3C, Event.dat 0x80, Event.cmd 0x44, Event.dat 0x00, Event.dat 0x31,
       Event.cmd 0x45, Event.dat 0x00, Event.dat 0x00, Event.dat 0x2B, Event.dat 0x01,
       Event.cmd 0x4E, Event.dat 0x00, Event.cmd 0x4F, Event.dat 0x00, Event.dat 0x00,
       Event.cmd 0x24] ++ (frameBufferBytes s).map Event.dat
      ++ [Event.cmd 0x22, Event.dat 0xFF, Event.cmd 0x20, Event.idle] := rfl

/-- C6: `display_partial()` first reconfigures the border-waveform
(0x3C) and display-update-control (0x21) registers and re-asserts the
RAM X/Y window (0x44/0x45) and counters (0x4E/0x4F), then writes the
frame-buffer mirror exactly once, to plane 0x24 only (command 0x26 never
occurs), then activates with waveform byte 0xFF on the 0x22/0x20 pair
and waits idle. -/
theorem display_partial_single_plane (s : EPDState) :
    ( display_partial s).2 =
      [Event.cmd 0x3C, Event.dat 0x80, Event.cmd 0x21, Event.dat 0x00, Event.dat 0x00,
       Event.cmd 0x3C, Event.dat 0x80, Event.cmd 0x44, Event.dat 0x00, Event.dat 0x31,
       Event.cmd 0x45, Event.dat 0x00, Event.dat 0x00, Event.dat 0x2B, Event.dat 0x01,
       Event.cmd 0x4E, Event.dat 0x00, Event.cmd 0x4F, Event.dat 0x00, Event.dat 0x00,
       Event.cmd 0x24] ++ (frameBufferBytes s).map Event.dat
      ++ [Event.cmd 0x22, Event.dat 0xFF, Event.cmd 0x20, Event.idle]
    ∧ Event.cmd 0x26 ∉ ( display_partial s).2
    ∧ (( display_partial s).2.count (Event.cmd 0x24)) = 1
    ∧ ( display_partial s).1 = s := by
  refine ⟨display_partial_snd s, ?_, ?_, rfl⟩
  · rw [display_partial_snd s]
    intro hmem
    rcases List.mem_append.mp hmem with h | h
    · rcases List.mem_append.mp h with h1 | h1
      · revert h1
        decide
      · rcases List.mem_map.mp h1 with ⟨b, _, hb⟩
        exact Event.noConfusion hb
    · revert h
      decide
  · rw [display_partial_snd s]
    rw [List.count_append, List.count_append]
    have h1 : (((frameBufferBytes s).map Event.dat).count (Event.cmd 0x24)) = 0 := by
      rw [List.count_eq_zero]
      intro hmem
      rcases List.mem_map.mp hmem with ⟨b, _, hb⟩
      exact Event.noConfusion hb
    rw [h1]
    decide

/-- C8: `draw(x, y, image)` first merges the image into the frame-buffer
mirror via `set_frame_buffer`, then invokes `display_partial` exactly
when the `partial_refresh` flag is set and `display_full` otherwise, on
the merged state. -/
theorem draw_dispatch (x y : Nat) (img : Image) (s : EPDState) :
    draw x y img s =
      (if s.partial_refresh then ( display_partial (set_frame_buffer x y img s))
       else ( display_full (set_frame_buffer x y img s))) := rfl

/-- C5 counterexample: after `sleep()` a `clear()` call is not rejected —
it is silently accepted and emits exactly the same (non-empty) bus trace
as a `clear()` on the never-slept driver.  The code keeps no device
state and has no rejection path. -/
theorem sleep_then_clear_executes :
    (clear (( sleep (mkInitState false false)).1)).2 = (clear (mkInitState false false)).2
    ∧ (clear (( sleep (mkInitState false false)).1)).2 ≠ [] :=
  ⟨rfl, by rw [clear_snd]; exact List.cons_ne_nil _ _⟩

/-- C5 amended: `sleep()` issues deep-sleep command 0x10 with single
data byte 0x01 but records no state change; subsequent `draw`/`clear`
calls are not rejected — the driver executes them unconditionally,
exactly as it would before the `sleep()`.  The Ready→Sleeping
precondition is documentation only (no state machine exists in the
code). -/
theorem sleep_no_state_machine (x y : Nat) (img : Image) (s : EPDState) :
    ( sleep s).1 = s
    ∧ ( sleep s).2 = [Event.cmd 0x10, Event.dat 0x01]
    ∧ clear (( sleep s).1) = clear s
    ∧ draw x y img (( sleep s).1) = draw x y img s :=
  ⟨rfl, rfl, rfl, rfl⟩

/-- C4 counterexample: `init_fast` (with successful bring-up, on the
fresh driver) never sends the RAM-write command 0x24, so it does not
finish by invoking `clear()` (whose trace begins with command 0x24);
`init` under the same conditions does send it.  The claim that both
variants finish with `clear()` is false for `init_fast`. -/
theorem init_fast_no_clear :
    Event.cmd 0x24 ∉ (init_fast false false true (mkInitState false false)).2.1
    ∧ Event.cmd 0x24 ∈ (init false false true (mkInitState false false)).2.1 :=
  ⟨by decide, by decide⟩

/-- C4 amended: with successful transport bring-up, `init` executes
reset, wait-idle, software reset (0x12), wait-idle, display-update
control (0x21←0x40,0x00), border waveform (0x3C←0x05), data-entry mode
(0x11←0x03), RAM X/Y window (0x44/0x45) to the full panel, RAM X/Y
counters (0x4E/0x4F) to the origin, wait-idle, and finishes by invoking
`clear()`; `init_fast` executes the same sequence with the temperature
load (0x1A←0x5A) and an update-activate cycle (0x22←0x91, 0x20,
wait-idle) inserted after the border-waveform write, but does **not**
invoke `clear()` — its trace ends at the final wait-idle and contains
no RAM-plane write at all. -/
theorem init_and_init_fast_sequences (p g : Bool) (s : EPDState) :
    (init p g true s).2.1 =
      [Event.rst, Event.idle, Event.cmd 0x12, Event.idle,
       Event.cmd 0x21, Event.dat 0x40, Event.dat 0x00,
       Event.cmd 0x3C, Event.dat 0x05,
       Event.cmd 0x11, Event.dat 0x03,
       Event.cmd 0x44, Event.dat 0x00, Event.dat 0x31,
       Event.cmd 0x45, Event.dat 0x00, Event.dat 0x00, Event.dat 0x2B, Event.dat 0x01,
       Event.cmd 0x4E, Event.dat 0x00,
       Event.cmd 0x4F, Event.dat 0x00, Event.dat 0x00,
       Event.idle] ++ (clear { s with partial_refresh := p, gray := g }).2
    ∧ (init_fast p g true s).2.1 =
      [Event.rst, Event.idle, Event.cmd 0x12, Event.idle,
       Event.cmd 0x21, Event.dat 0x40, Event.dat 0x00,
       Event.cmd 0x3C, Event.dat 0x05,
       Event.cmd 0x1A, Event.dat 0x5A,
       Event.cmd 0x22, Event.dat 0x91, Event.cmd 0x20, Event.idle,
       Event.cmd 0x11, Event.dat 0x03,
       Event.cmd 0x44, Event.dat 0x00, Event.dat 0x31,
       Event.cmd 0x45, Event.dat 0x00, Event.dat 0x00, Event.dat 0x2B, Event.dat 0x01,
       Event.cmd 0x4E, Event.dat 0x00,
       Event.cmd 0x4F, Event.dat 0x00, Event.dat 0x00,
       Event.idle]
    ∧ Event.cmd 0x24 ∉ (init_fast p g true s).2.1
    ∧ Event.cmd 0x26 ∉ (init_fast p g true s).2.1 := by
  refine ⟨rfl, rfl, ?_, ?_⟩ <;>
    · show _ ∉ ([Event.rst] ++ _)
      decide

/-- Helper: `0x80 >> r` for a shift amount below 8 is the power of two
at bit position `7 - r` (most-significant bit for `r = 0`). -/
lemma shiftRight_128 (r : Nat) (h : r < 8) : 128 >>> r = 2 ^ (7 - r) := by
  interval_cases r <;> rfl

/-- Helper: masking a byte with a single power of two yields zero
exactly when the corresponding bit is clear. -/
lemma land_two_pow_eq_zero_iff (b p : Nat) : b &&& 2 ^ p = 0 ↔ b.testBit p = false := by
  constructor
  · intro h
    have ht := congrArg (fun n => n.testBit p) h
    simpa only [Nat.testBit_land, Nat.testBit_two_pow_self, Bool.and_true,
      Nat.zero_testBit] using ht
  · intro h
    apply Nat.eq_of_testBit_eq
    intro q
    rw [Nat.testBit_land, Nat.zero_testBit]
    by_cases hq : q = p
    · subst hq
      rw [Nat.testBit_two_pow_self, Bool.and_true, h]
    · rw [Nat.testBit_two_pow_of_ne (Ne.symm hq), Bool.and_false]

/-- Effect of one `set_frame_buffer` inner-loop iteration on the stored
monochrome value of an arbitrary panel pixel `(u, v)`: pixel
`(x + i, y + j)` is set to whether the source pixel is non-zero, every
other pixel keeps its bit. -/
lemma pixelBit_mergePixel (pix : Nat → Nat → Nat) (x y i j u v : Nat) (fb : Nat → Nat)
    (hu : u < WIDTH) (hxi : x + i < WIDTH) :
    pixelBit (mergePixel pix x y i j fb) u v =
      if u = x + i ∧ v = y + j then decide (pix i j ≠ 0) else pixelBit fb u v := by
  have hW : WIDTH = 400 := rfl
  rw [hW] at hu hxi
  have hm8 : (x + i) % 8 < 8 := Nat.mod_lt _ (by norm_num)
  have hmask : (128 : Nat) >>> ((x + i) % 8) = 2 ^ (7 - (x + i) % 8) :=
    shiftRight_128 _ hm8
  unfold pixelBit mergePixel
  simp only [hW, hmask]
  by_cases hap : u = x + i ∧ v = y + j
  · obtain ⟨h1, h2⟩ := hap
    subst h1
    subst h2
    rw [if_pos (⟨rfl, rfl⟩ : x + i = x + i ∧ y + j = y + j)]
    rw [if_pos (rfl : (x + i) / 8 + (y + j) * 400 / 8 = (x + i) / 8 + (y + j) * 400 / 8)]
    by_cases hp : pix i j = 0
    · rw [if_neg (not_not_intro hp)]
      rw [Nat.testBit_ldiff, Nat.testBit_two_pow_self, Bool.not_true, Bool.and_false]
      exact (decide_eq_false (not_not_intro hp)).symm
    · rw [if_pos hp]
      rw [Nat.testBit_lor, Nat.testBit_two_pow_self, Bool.or_true]
      exact (decide_eq_true hp).symm
  · rw [if_neg hap]
    by_cases hidx : (u / 8 + v * 400 / 8) = ((x + i) / 8 + (y + j) * 400 / 8)
    · have hbyte : u / 8 = (x + i) / 8 ∧ v = y + j := by omega
      have hne : u ≠ x + i := fun he => hap ⟨he, hbyte.2⟩
      have hrem : u % 8 ≠ (x + i) % 8 := by omega
      have hbitne : (7 - (x + i) % 8) ≠ (7 - u % 8) := by omega
      rw [if_pos hidx]
      by_cases hp : pix i j = 0
      · rw [if_neg (not_not_intro hp)]
        rw [Nat.testBit_ldiff, Nat.testBit_two_pow_of_ne hbitne, Bool.not_false, Bool.and_true]
      · rw [if_pos hp]
        rw [Nat.testBit_lor, Nat.testBit_two_pow_of_ne hbitne, Bool.or_false]
    · rw [if_neg hidx]

/-- Effect of one full row iteration of `set_frame_buffer` on an
arbitrary pixel. -/
lemma pixelBit_mergeRow (pix : Nat → Nat → Nat) (x y j w u v : Nat) (fb : Nat → Nat)
    (hu : u < WIDTH) (hw : x + w ≤ WIDTH) :
    pixelBit (mergeRow pix x y j w fb) u v =
      if x ≤ u ∧ u < x + w ∧ v = y + j then decide (pix (u - x) j ≠ 0) else pixelBit fb u v := by
  induction w with
  | zero =>
    rw [if_neg (by omega)]
    rfl
  | succ w ih =>
    have hrow : mergeRow pix x y j (w + 1) fb = mergePixel pix x y w j (mergeRow pix x y j w fb) := by
      unfold mergeRow
      rw [List.range_succ, List.foldl_append]
      rfl
    rw [hrow, pixelBit_mergePixel pix x y w j u v _ hu (by omega),
      ih (by omega)]
    by_cases hR : x ≤ u ∧ u < x + (w + 1) ∧ v = y + j
    · rw [if_pos hR]
      by_cases h1 : u = x + w ∧ v = y + j
      · rw [if_pos h1]
        have he : u - x = w := by omega
        rw [he]
      · have hne : u ≠ x + w := fun he => h1 ⟨he, hR.2.2⟩
        have hlt : u < x + w := by omega
        rw [if_neg h1, if_pos ⟨hR.1, hlt, hR.2.2⟩]
    · rw [if_neg hR]
      have h1 : ¬(u = x + w ∧ v = y + j) := by
        intro hc
        exact hR ⟨by omega, by omega, hc.2⟩
      have h2 : ¬(x ≤ u ∧ u < x + w ∧ v = y + j) := by
        intro hc
        exact hR ⟨hc.1, by omega, hc.2.2⟩
      rw [if_neg h1, if_neg h2]

/-- Effect of the whole `set_frame_buffer` double loop on an arbitrary
pixel: pixels inside the merged rectangle take the source pattern,
pixels outside keep their previous bit. -/
lemma pixelBit_mergeRect (pix : Nat → Nat → Nat) (x y w h u v : Nat) (fb : Nat → Nat)
    (hu : u < WIDTH) (hw : x + w ≤ WIDTH) :
    pixelBit (mergeRect pix x y w h fb) u v =
      if x ≤ u ∧ u < x + w ∧ y ≤ v ∧ v < y + h then decide (pix (u - x) (v - y) ≠ 0)
      else pixelBit fb u v := by
  induction h with
  | zero =>
    rw [if_neg (by omega)]
    rfl
  | succ h ih =>
    have hrect : mergeRect pix x y w (h + 1) fb = mergeRow pix x y h w (mergeRect pix x y w h fb) := by
      unfold mergeRect
      rw [List.range_succ, List.foldl_append]
      rfl
    rw [hrect, pixelBit_mergeRow pix x y h w u v _ hu hw, ih]
    by_cases hR : x ≤ u ∧ u < x + w ∧ y ≤ v ∧ v < y + (h + 1)
    · rw [if_pos hR]
      by_cases hv : v = y + h
      · rw [if_pos ⟨hR.1, hR.2.1, hv⟩]
        have he : v - y = h := by omega
        rw [he]
      · have hlt : v < y + h := by omega
        rw [if_neg (fun hc => hv hc.2.2), if_pos ⟨hR.1, hR.2.1, hR.2.2.1, hlt⟩]
    · rw [if_neg hR]
      have h1 : ¬(x ≤ u ∧ u < x + w ∧ v = y + h) := by
        intro hc
        exact hR ⟨hc.1, hc.2.1, by omega, by omega⟩
      have h2 : ¬(x ≤ u ∧ u < x + w ∧ y ≤ v ∧ v < y + h) := by
        intro hc
        exact hR ⟨hc.1, hc.2.1, hc.2.2.1, by omega⟩
      rw [if_neg h1, if_neg h2]

/-- Helper: for in-range coordinates, a pixel of
`frame_buffer_to_image` is non-zero (renders white) exactly when the
corresponding stored bit is set. -/
lemma to_image_pixels_ne_zero (s : EPDState) (i j : Nat) (hi : i < WIDTH) (hj : j < HEIGHT) :
    ((frame_buffer_to_image s).pixels i j ≠ 0) ↔ pixelBit s.frame_buffer i j = true := by
  show ((if i < WIDTH ∧ j < HEIGHT then s.frame_buffer (i / 8 + j * WIDTH / 8) &&& 0x80 >>> (i % 8) else 255) ≠ 0) ↔ _
  rw [if_pos ⟨hi, hj⟩, shiftRight_128 (i % 8) (Nat.mod_lt _ (by norm_num))]
  unfold pixelBit
  rw [Ne, land_two_pow_eq_zero_iff]
  simp

/-- C1: round trip.  For every rectangle fully inside the panel bounds
and every prior frame-buffer state, merging an image `B` at `(x, y)`
with `set_frame_buffer` and reading back with `frame_buffer_to_image`
reproduces `B`'s monochrome pixel pattern over
`[x, x+B.width) × [y, y+B.height)` exactly: the read-back pixel is
non-zero (white) precisely when the source pixel was non-zero,
independent of the buffer contents before the merge. -/
theorem set_frame_buffer_round_trip (x y : Nat) (img : Image) (s : EPDState)
    (hx : x + img.width ≤ WIDTH) (hy : y + img.height ≤ HEIGHT)
    (i j : Nat) (hi : i < img.width) (hj : j < img.height) :
    ((frame_buffer_to_image (set_frame_buffer x y img s)).pixels (x + i) (y + j) ≠ 0
      ↔ img.pixels i j ≠ 0) := by
  have hWH : HEIGHT ≤ WIDTH := by decide
  have hu : x + i < WIDTH := by omega
  have hv : y + j < HEIGHT := by omega
  rw [to_image_pixels_ne_zero _ _ _ hu hv]
  show pixelBit (mergeRect img.pixels x y img.width img.height s.frame_buffer) (x + i) (y + j) = true
    ↔ img.pixels i j ≠ 0
  rw [pixelBit_mergeRect img.pixels x y img.width img.height (x + i) (y + j) s.frame_buffer hu hx]
  rw [if_pos ⟨by omega, by omega, by omega, by omega⟩]
  rw [show x + i - x = i from by omega, show y + j - y = j from by omega]
  exact decide_eq_true_iff

/-- A small concrete test image: 2×2, black top-left pixel, the rest
white. -/
def testImage : Image :=
  { width := 2, height := 2, pixels := fun i j => if i = 0 ∧ j = 0 then 0 else 255 }

/-- Witness for C1 at `(x, y) = (3, 5)`, pixel `(0, 0)` of a concrete
2×2 image merged into the fresh all-0xFF buffer. -/
theorem set_frame_buffer_round_trip_witness :
    3 + testImage.width ≤ WIDTH ∧ 5 + testImage.height ≤ HEIGHT
    ∧ 0 < testImage.width ∧ 0 < testImage.height
    ∧ ((frame_buffer_to_image (set_frame_buffer 3 5 testImage (mkInitState false false))).pixels (3 + 0) (5 + 0) ≠ 0
        ↔ testImage.pixels 0 0 ≠ 0) :=
  ⟨by decide, by decide, by decide, by decide,
    set_frame_buffer_round_trip 3 5 testImage (mkInitState false false)
      (by decide) (by decide) 0 0 (by decide) (by decide)⟩

/-- C2 counterexample: in the freshly constructed state every bit of the
backing byte array is set (bytes are 0xFF), yet `frame_buffer_to_image`
renders pixel (0, 0) as the non-zero value 0x80, which is white, not
black, in a PIL mode-1 image.  So a set bit does not render black. -/
theorem set_bit_renders_white :
    ((mkInitState false false).frame_buffer (0 / 8 + 0 * WIDTH / 8)).testBit (7 - 0 % 8) = true
    ∧ ¬ isBlackPixel ((frame_buffer_to_image (mkInitState false false)).pixels 0 0) :=
  ⟨by decide, by show ¬ ((frame_buffer_to_image (mkInitState false false)).pixels 0 0 = 0); decide⟩

/-- C2 amended: the polarity is the reverse of the claim: for every
buffer state and every in-range pixel, `frame_buffer_to_image` renders
the pixel black (pixel value 0) if and only if the corresponding bit of
the backing byte array is **clear**; a set bit renders white.  The
position mapping stands as claimed: the most-significant bit of each
byte (bit `7 - i % 8` of byte `i / 8 + j * width / 8`) is the leftmost
pixel of its 8-pixel group. -/
theorem to_image_black_iff_bit_clear (s : EPDState) (i j : Nat)
    (hi : i < WIDTH) (hj : j < HEIGHT) :
    (isBlackPixel ((frame_buffer_to_image s).pixels i j)
      ↔ (s.frame_buffer (i / 8 + j * WIDTH / 8)).testBit (7 - i % 8) = false) := by
  show ((if i < WIDTH ∧ j < HEIGHT then s.frame_buffer (i / 8 + j * WIDTH / 8) &&& 0x80 >>> (i % 8) else 255) = 0) ↔ _
  rw [if_pos ⟨hi, hj⟩, shiftRight_128 (i % 8) (Nat.mod_lt _ (by norm_num))]
  exact land_two_pow_eq_zero_iff _ _

/-- Witness for C2's amended theorem at pixel (0, 0) of an all-zero
(black) buffer. -/
theorem to_image_black_iff_bit_clear_witness :
    0 < WIDTH ∧ 0 < HEIGHT
    ∧ (isBlackPixel ((frame_buffer_to_image { partial_refresh := false, gray := false, frame_buffer := fun _ => 0 }).pixels 0 0)
        ↔ (EPDState.frame_buffer { partial_refresh := false, gray := false, frame_buffer := fun _ => 0 } (0 / 8 + 0 * WIDTH / 8)).testBit (7 - 0 % 8) = false) :=
  ⟨by decide, by decide,
    to_image_black_iff_bit_clear
      { partial_refresh := false, gray := false, frame_buffer := fun _ => 0 }
      0 0 (by decide) (by decide)⟩

/-- A driver state whose mirror is all zeros (every pixel black). -/
def blackState : EPDState :=
  { partial_refresh := false, gray := false, frame_buffer := fun _ => 0 }

/-- C3 counterexample: from the all-zero-mirror state, `clear()`
followed by `frame_buffer_to_image` does **not** give an all-white
image: pixel (0, 0) is 0, i.e. black (clear never touches the mirror). -/
theorem clear_then_to_image_not_all_white :
    isBlackPixel ((frame_buffer_to_image ((clear blackState).1)).pixels 0 0) := by
  show (frame_buffer_to_image ((clear blackState).1)).pixels 0 0 = 0
  decide

/-- C3 amended: `clear()` does not modify the mirror, so
`frame_buffer_to_image` after `clear()` equals `frame_buffer_to_image`
before it for every state and pixel; the result is the all-white
400×300 image exactly when the mirror was already all-white, e.g. from
the freshly constructed state, where every in-range pixel reads back
non-zero (white). -/
theorem clear_then_to_image (s : EPDState) (i j : Nat)
    (hi : i < WIDTH) (hj : j < HEIGHT) :
    ((frame_buffer_to_image ((clear s).1)).pixels i j = (frame_buffer_to_image s).pixels i j)
    ∧ (frame_buffer_to_image ((clear (mkInitState false false)).1)).pixels i j ≠ 0 := by
  refine ⟨rfl, ?_⟩
  show (if i < WIDTH ∧ j < HEIGHT then (255 : Nat) &&& 0x80 >>> (i % 8) else 255) ≠ 0
  rw [if_pos ⟨hi, hj⟩, shiftRight_128 (i % 8) (Nat.mod_lt _ (by norm_num)),
    Ne, land_two_pow_eq_zero_iff]
  have h8 : i % 8 < 8 := Nat.mod_lt _ (by norm_num)
  intro hfalse
  revert hfalse
  interval_cases h : i % 8 <;> decide

/-- Witness for C3's amended theorem at pixel (0, 0). -/
theorem clear_then_to_image_witness :
    0 < WIDTH ∧ 0 < HEIGHT
    ∧ (((frame_buffer_to_image ((clear blackState).1)).pixels 0 0 = (frame_buffer_to_image blackState).pixels 0 0)
        ∧ (frame_buffer_to_image ((clear (mkInitState false false)).1)).pixels 0 0 ≠ 0) :=
  ⟨by decide, by decide, clear_then_to_image blackState 0 0 (by decide) (by decide)⟩

/-- Helper: `fill` is exactly the fold of `draw` over the call list
`fillCalls` (the `div` full tiles in order, then the remainder tile when
`height mod fillsize` is non-zero). -/
lemma fill_eq_foldl (color t : Nat) (s : EPDState) :
    fill color t s = (fillCalls color t).foldl drawStep (s, ([] : List Event)) := by
  simp only [fill, fillCalls]
  rw [List.foldl_append, List.foldl_map]
  by_cases h : HEIGHT % t ≠ 0
  · rw [if_pos h, if_pos h]
    rfl
  · rw [if_neg h, if_neg h]
    rfl

/-- Helper: ceiling division written with `+ t - 1` agrees with quotient
plus a carry for a non-zero remainder. -/
lemma ceil_div_eq (H t : Nat) (ht : 0 < t) :
    (H + t - 1) / t = H / t + if H % t = 0 then 0 else 1 := by
  have h0 := Nat.div_add_mod H t
  have hm : H % t < t := Nat.mod_lt _ ht
  by_cases h : H % t = 0
  · rw [if_pos h]
    have h1 : H + t - 1 = t * (H / t) + (t - 1) := by omega
    rw [h1, Nat.mul_add_div ht, Nat.div_eq_of_lt (show t - 1 < t by omega)]
  · rw [if_neg h]
    have h1 : H + t - 1 = t * (H / t) + ((H % t - 1) + t) := by omega
    rw [h1, Nat.mul_add_div ht, Nat.add_div_right _ ht,
      Nat.div_eq_of_lt (show H % t - 1 < t by omega)]

/-- Helper: among the first `n` full tiles of height `t`, exactly the
tile numbered `v / t` covers row `v` (when it exists). -/
lemma countP_range_tile (t v n : Nat) (ht : 0 < t) :
    (List.range n).countP (fun i => decide (i * t ≤ v ∧ v < i * t + t)) =
      if v / t < n then 1 else 0 := by
  induction n with
  | zero =>
    rw [if_neg (Nat.not_lt_zero _)]
    rfl
  | succ n ih =>
    rw [List.range_succ, List.countP_append, ih]
    have hsingle : (List.countP (fun i => decide (i * t ≤ v ∧ v < i * t + t)) [n]) =
        if n * t ≤ v ∧ v < n * t + t then 1 else 0 := by
      simp [List.countP_cons]
    rw [hsingle]
    have hdiv : (n * t ≤ v ∧ v < n * t + t) ↔ v / t = n := by
      have hmul : (n + 1) * t = n * t + t := by ring
      constructor
      · intro hc
        have ha : n ≤ v / t := (Nat.le_div_iff_mul_le ht).mpr hc.1
        have hb : v / t < n + 1 := (Nat.div_lt_iff_lt_mul ht).mpr (by omega)
        omega
      · intro hc
        have ha : n * t ≤ v := (Nat.le_div_iff_mul_le ht).mp (by omega)
        have hb : v < (n + 1) * t := (Nat.div_lt_iff_lt_mul ht).mp (by omega)
        omega
    rw [if_congr hdiv rfl rfl]
    split_ifs <;> omega

/-- C9: `fill(color, t)` with `0 < t ≤ height` issues exactly
`⌈height / t⌉` draw calls, all at `x = 0`: call `k < height / t` draws a
full-width tile of height `t` at `y = k * t`, and when
`height mod t ≠ 0` one final call draws a full-width tile of height
`height mod t` at `y = (height / t) * t`; every row `v < height` is
covered by exactly one of the drawn tiles (exact cover, no overlap). -/
theorem fill_tiling (color t : Nat) (s : EPDState) (ht : 0 < t) (hle : t ≤ HEIGHT) :
    fill color t s = (fillCalls color t).foldl drawStep (s, ([] : List Event))
    ∧ (fillCalls color t).length = (HEIGHT + t - 1) / t
    ∧ (∀ k, k < HEIGHT / t →
        (fillCalls color t)[k]? = some (0, k * t, solidImage WIDTH t color))
    ∧ (HEIGHT % t ≠ 0 →
        (fillCalls color t)[HEIGHT / t]? =
          some (0, (HEIGHT / t) * t, solidImage WIDTH (HEIGHT % t) color))
    ∧ (∀ v, v < HEIGHT →
        ((fillCalls color t).countP
          (fun p => decide (p.2.1 ≤ v ∧ v < p.2.1 + p.2.2.height))) = 1) := by
  refine ⟨fill_eq_foldl color t s, ?_, ?_, ?_, ?_⟩
  · simp only [fillCalls]
    rw [List.length_append, List.length_map, List.length_range, ceil_div_eq HEIGHT t ht]
    by_cases h : HEIGHT % t = 0
    · rw [if_neg (not_not_intro h), if_pos h]
      rfl
    · rw [if_pos h, if_neg h]
      rfl
  · intro k hk
    simp only [fillCalls]
    rw [List.getElem?_append_left (by rw [List.length_map, List.length_range]; exact hk)]
    rw [List.getElem?_map]
    simp [List.getElem?_range, hk]
  · intro hrm
    simp only [fillCalls]
    rw [List.getElem?_append_right (by rw [List.length_map, List.length_range])]
    rw [List.length_map, List.length_range, Nat.sub_self, if_pos hrm]
    rfl
  · intro v hv
    simp only [fillCalls]
    rw [List.countP_append, List.countP_map]
    have hcomp :
        ((fun p : Nat × Nat × Image => decide (p.2.1 ≤ v ∧ v < p.2.1 + p.2.2.height)) ∘
          (fun i => (0, i * t, solidImage WIDTH t color))) =
        fun i => decide (i * t ≤ v ∧ v < i * t + t) := by
      funext i
      rfl
    rw [hcomp, countP_range_tile t v (HEIGHT / t) ht]
    have h0 := Nat.div_add_mod HEIGHT t
    have hm : HEIGHT % t < t := Nat.mod_lt _ ht
    have hcomm : (HEIGHT / t) * t = t * (HEIGHT / t) := Nat.mul_comm _ _
    by_cases hrm : HEIGHT % t = 0
    · rw [if_neg (not_not_intro hrm), List.countP_nil]
      have hvdiv : v / t < HEIGHT / t := by
        rw [Nat.div_lt_iff_lt_mul ht]
        omega
      rw [if_pos hvdiv]
    · rw [if_pos hrm]
      have hsingle : (List.countP
          (fun p : Nat × Nat × Image => decide (p.2.1 ≤ v ∧ v < p.2.1 + p.2.2.height))
          [(0, (HEIGHT / t) * t, solidImage WIDTH (HEIGHT % t) color)]) =
          if (HEIGHT / t) * t ≤ v ∧ v < (HEIGHT / t) * t + HEIGHT % t then 1 else 0 := by
        simp [List.countP_cons, solidImage]
      rw [hsingle]
      by_cases hvlt : v / t < HEIGHT / t
      · rw [if_pos hvlt]
        have hsecond : ¬((HEIGHT / t) * t ≤ v ∧ v < (HEIGHT / t) * t + HEIGHT % t) := by
          intro hc
          have := (Nat.le_div_iff_mul_le ht).mpr hc.1
          omega
        rw [if_neg hsecond]
      · rw [if_neg hvlt]
        have h1 : (HEIGHT / t) * t ≤ v := (Nat.le_div_iff_mul_le ht).mp (by omega)
        have h2 : v < (HEIGHT / t) * t + HEIGHT % t := by omega
        rw [if_pos ⟨h1, h2⟩]

/-- Witness for C9 at `t = 8` on the 300-row panel (37 full tiles and a
4-row remainder tile). -/
theorem fill_tiling_witness :
    (0 : Nat) < 8 ∧ (8 : Nat) ≤ HEIGHT
    ∧ (fill 0 8 (mkInitState false false) =
        (fillCalls 0 8).foldl drawStep (mkInitState false false, ([] : List Event))
    ∧ (fillCalls 0 8).length = (HEIGHT + 8 - 1) / 8
    ∧ (∀ k, k < HEIGHT / 8 →
        (fillCalls 0 8)[k]? = some (0, k * 8, solidImage WIDTH 8 0))
    ∧ (HEIGHT % 8 ≠ 0 →
        (fillCalls 0 8)[HEIGHT / 8]? =
          some (0, (HEIGHT / 8) * 8, solidImage WIDTH (HEIGHT % 8) 0))
    ∧ (∀ v, v < HEIGHT →
        ((fillCalls 0 8).countP
          (fun p => decide (p.2.1 ≤ v ∧ v < p.2.1 + p.2.2.height))) = 1)) :=
  ⟨by decide, by decide, fill_tiling 0 8 (mkInitState false false) (by decide) (by decide)⟩
